import Mathlib

/-!
Verification development for the CalendarBookAI repository.

The backend (`backend/agent.py`, `backend/calendar_service.py`) is embedded
shallowly:

* Python strings are `List Char` (`Chars`); `str.lower`, `str.strip`,
  `str.split`, substring tests (`in`) and the handful of regular expressions
  the code uses are reimplemented as executable Lean functions with the same
  semantics on the inputs that occur.
* `datetime` values are minutes since an arbitrary epoch (`Nat`);
  `replace(hour=…, minute=…)` keeps the day component and re-sets the time of
  day; `datetime.now()` is threaded through as an explicit `now` parameter.
  Round-tripping a datetime through `isoformat`/`fromisoformat` (done by the
  agent when it stores offered slots) is the identity, so stored slots keep
  their numeric times.
* The Gemini call and the Google-calendar API are external collaborators and
  are modelled as oracles: an `NLU` record (availability flag plus a
  `generate` function that may fail) and a `CalendarEnv` record (mock-mode
  flag plus the possible outcomes of the two real API calls, which may fail).
  A raised Python exception is the `.error` case of the oracle.
* `json.loads` is modelled by an executable parser for flat JSON objects with
  boolean / escape-free string values — exactly the grammar `json.dumps`
  produces in `_get_fallback_response` — returning `none` (= raising) on
  everything else.
* Calendar writes are observable: agent functions return, next to their
  result, the list of `create_event` calls they performed.
-/

set_option maxRecDepth 100000
set_option maxHeartbeats 2000000

abbrev Chars := List Char

def cs (x : String) : Chars := x.data

def natChars (n : Nat) : Chars := (Nat.repr n).data

/-- Python `\s` / `str.strip()` whitespace (ASCII fragment). -/
def isPySpace (c : Char) : Bool :=
  c = ' ' || c = '\t' || c = '\n' || c = '\r' || c = '\x0b' || c = '\x0c'

/-- Model of `str.lower()` (ASCII; all strings in the program are ASCII-lowerable). -/
def pyLower (l : Chars) : Chars := l.map Char.toLower

/-- Model of `str.strip()`. -/
def pyStrip (l : Chars) : Chars :=
  ((l.dropWhile isPySpace).reverse.dropWhile isPySpace).reverse

/-- Python `needle in haystack` substring test. -/
def containsList (n : Chars) : Chars → Bool
  | [] => n.isEmpty
  | c :: rest => n.isPrefixOf (c :: rest) || containsList n rest

/-- Python `s.split(sep)` for a one-character separator (keeps empty parts). -/
def pySplit (sep : Char) : Chars → List Chars
  | [] => [[]]
  | c :: rest =>
    if c = sep then [] :: pySplit sep rest
    else
      match pySplit sep rest with
      | [] => [[c]]
      | h :: t => (c :: h) :: t

/-- First alternative of `alts` that is a prefix of `l` (regex alternation at
one position tries alternatives left to right). -/
def firstPrefixAlt (alts : List Chars) (l : Chars) : Option Chars :=
  alts.find? (fun a => a.isPrefixOf l)

/-- Leftmost-match scan: try `f` at every suffix, left to right.  `f` returns
the data of a match anchored at that position.  (No pattern used in the
program matches the empty string, so the position after the last character
never matches and is omitted.) -/
def scanFor {β : Type} (f : Chars → Option β) : Chars → Option β
  | [] => none
  | c :: rest =>
    match f (c :: rest) with
    | some b => some b
    | none => scanFor f rest

/-- Model of `re.search` for a plain alternation of literals, returning `group()`. -/
def searchAlts (alts : List Chars) (l : Chars) : Option Chars :=
  scanFor (firstPrefixAlt alts) l

-- ---------------------------------------------------------------------------
-- Basic lemmas about the string layer
-- ---------------------------------------------------------------------------

theorem isPrefixOf_append_of {n a : Chars} (b : Chars)
    (h : n.isPrefixOf a = true) : n.isPrefixOf (a ++ b) = true := by
  induction n generalizing a with
  | nil => simp [List.isPrefixOf]
  | cons x n ih =>
    cases a with
    | nil => simp [List.isPrefixOf] at h
    | cons d a =>
      simp only [List.isPrefixOf, Bool.and_eq_true, beq_iff_eq] at h ⊢
      exact ⟨h.1, ih h.2⟩

theorem containsList_append_left {n a : Chars} (b : Chars)
    (h : containsList n a = true) : containsList n (a ++ b) = true := by
  induction a with
  | nil =>
    simp [containsList] at h
    subst h
    cases b <;> simp [containsList, List.isPrefixOf]
  | cons d a ih =>
    simp only [containsList, Bool.or_eq_true] at h ⊢
    rcases h with h | h
    · exact Or.inl (isPrefixOf_append_of b h)
    · exact Or.inr (ih h)

theorem containsList_append_right {n b : Chars} (a : Chars)
    (h : containsList n b = true) : containsList n (a ++ b) = true := by
  induction a with
  | nil => simpa using h
  | cons d a ih => simp only [List.cons_append, containsList, Bool.or_eq_true]; exact Or.inr ih

theorem isPrefixOf_append_cons {n : Chars} {c : Char} (a b : Chars)
    (hc : c ∉ n) : n.isPrefixOf (a ++ c :: b) = n.isPrefixOf a := by
  induction n generalizing a with
  | nil => simp [List.isPrefixOf]
  | cons x n ih =>
    cases a with
    | nil =>
      have hxc : (x == c) = false := by
        simp only [beq_eq_false_iff_ne, ne_eq]
        intro h; exact hc (h ▸ List.mem_cons_self x n)
      simp [List.isPrefixOf, hxc]
    | cons d a =>
      have hn : c ∉ n := fun h => hc (List.mem_cons_of_mem x h)
      simp only [List.cons_append, List.isPrefixOf, List.append_eq, ih a hn]

theorem containsList_append_cons {n : Chars} {c : Char} (a b : Chars)
    (hc : c ∉ n) :
    containsList n (a ++ c :: b) = (containsList n a || containsList n b) := by
  induction a with
  | nil =>
    have hpre : n.isPrefixOf (c :: b) = n.isPrefixOf ([] : Chars) :=
      isPrefixOf_append_cons [] b hc
    simp only [List.nil_append, containsList, hpre]
    cases n <;> simp [containsList, List.isPrefixOf, List.isEmpty]
  | cons d a ih =>
    have h1 : containsList n ((d :: a) ++ c :: b)
        = (List.isPrefixOf n ((d :: a) ++ c :: b) || containsList n (a ++ c :: b)) := rfl
    rw [h1, isPrefixOf_append_cons (d :: a) b hc, ih]
    simp [containsList, Bool.or_assoc]

theorem pySplit_ne_nil (sep : Char) (l : Chars) : pySplit sep l ≠ [] := by
  induction l with
  | nil => simp [pySplit]
  | cons c rest ih =>
    simp only [pySplit]
    split
    · simp
    · cases h : pySplit sep rest with
      | nil => simp
      | cons x t => simp

theorem pySplit_append_cons {sep : Char} (a b : Chars) (ha : sep ∉ a) :
    pySplit sep (a ++ sep :: b) = a :: pySplit sep b := by
  induction a with
  | nil => simp [pySplit]
  | cons d a ih =>
    have hd : ¬(d = sep) := fun h => ha (h ▸ List.mem_cons_self d a)
    have ha2 : sep ∉ a := fun h => ha (List.mem_cons_of_mem d h)
    simp only [List.cons_append, pySplit, if_neg hd, List.append_eq, ih ha2]

theorem searchAlts_isSome_of_mem {t : Chars} {alts : List Chars} {l : Chars}
    (hmem : t ∈ alts) (ht : t ≠ []) (h : containsList t l = true) :
    (searchAlts alts l).isSome = true := by
  induction l with
  | nil =>
    simp only [containsList, List.isEmpty_iff] at h
    exact absurd h ht
  | cons c rest ih =>
    simp only [containsList, Bool.or_eq_true] at h
    simp only [searchAlts, scanFor]
    rcases h with h | h
    · have : (firstPrefixAlt alts (c :: rest)).isSome = true := by
        simp only [firstPrefixAlt, List.find?_isSome]
        exact ⟨t, hmem, h⟩
      cases hf : firstPrefixAlt alts (c :: rest) with
      | none => rw [hf] at this; simp at this
      | some a => simp
    · cases hf : firstPrefixAlt alts (c :: rest) with
      | none => simpa [searchAlts] using ih h
      | some a => simp

-- ---------------------------------------------------------------------------
-- Regular expressions used by the agent
-- ---------------------------------------------------------------------------

def isDig (c : Char) : Bool := c.isDigit

def isWordChar (c : Char) : Bool := c.isAlphanum || c = '_'

def takeCount (p : Char → Bool) (l : Chars) : Nat := (l.takeWhile p).length

def firstSome {α β : Type} (f : α → Option β) : List α → Option β
  | [] => none
  | x :: xs =>
    match f x with
    | some b => some b
    | none => firstSome f xs

def natOfDigits (ds : Chars) : Nat := ds.foldl (fun a c => a * 10 + (c.toNat - 48)) 0

/-- Model of `(am|pm)` anchored at `l`: `some true` for pm, `some false` for am. -/
def ampmAt (l : Chars) : Option Bool :=
  if (cs ("am")).isPrefixOf l then some false
  else if (cs ("pm")).isPrefixOf l then some true
  else none

/-- Model of `(\d{1,2}):?(\d{0,2})\s*(am|pm)` anchored at `l`, with Python's greedy
backtracking; returns `(group 1, group 2 as Nat with '' ↦ 0, pm?, match length)`. -/
def matchClockAt (l : Chars) : Option (Nat × Nat × Bool × Nat) :=
  let nd := takeCount isDig l
  firstSome (fun n1 =>
    if 1 ≤ n1 ∧ n1 ≤ nd then
      let a1 := l.drop n1
      let colonOpts : List Nat := if a1.head? = some ':' then [1, 0] else [0]
      firstSome (fun co =>
        let a2 := a1.drop co
        let nd2 := takeCount isDig a2
        firstSome (fun n2 =>
          if n2 ≤ nd2 then
            let a3 := a2.drop n2
            let ws := takeCount isPySpace a3
            firstSome (fun k =>
              let a4 := a3.drop k
              (ampmAt a4).map (fun pm =>
                (natOfDigits (l.take n1), natOfDigits (a2.take n2), pm, n1 + co + n2 + k + 2)))
              ((List.range (ws + 1)).reverse)
          else none) [2, 1, 0]) colonOpts
    else none) [2, 1]

/-- Model of `re.search(r'(\d{1,2}):?(\d{0,2})\s*(am|pm)', l)`: matched text + groups. -/
def searchClock : Chars → Option (Chars × Nat × Nat × Bool)
  | [] => none
  | c :: rest =>
    match matchClockAt (c :: rest) with
    | some (g1, g2, pm, len) => some ((c :: rest).take len, g1, g2, pm)
    | none => searchClock rest

/-- Model of `(\d{1,2})\s*(am|pm)` anchored at `l`; returns `(group 1, pm?)`. -/
def matchHourAt (l : Chars) : Option (Nat × Bool) :=
  let nd := takeCount isDig l
  firstSome (fun n1 =>
    if 1 ≤ n1 ∧ n1 ≤ nd then
      let a1 := l.drop n1
      let ws := takeCount isPySpace a1
      firstSome (fun k =>
        (ampmAt (a1.drop k)).map (fun pm => (natOfDigits (l.take n1), pm)))
        ((List.range (ws + 1)).reverse)
    else none) [2, 1]

def searchHour (l : Chars) : Option (Nat × Bool) := scanFor matchHourAt l

/-- Model of `next\s+(week|monday|tuesday|wednesday|thursday|friday)` anchored at `l`;
returns the full matched text. -/
def matchNextAt (l : Chars) : Option Chars :=
  if (cs ("next")).isPrefixOf l then
    let a1 := l.drop 4
    let ws := takeCount isPySpace a1
    if ws = 0 then none
    else
      match firstPrefixAlt
          [cs ("week"), cs ("monday"), cs ("tuesday"), cs ("wednesday"),
            cs ("thursday"), cs ("friday")] (a1.drop ws) with
      | some w => some (l.take (4 + ws + w.length))
      | none => none
  else none

/-- Model of `re.search(r'\b([123])\b', l)`: the first slot digit with word boundaries. -/
def searchSlotNumAux (prev : Option Char) : Chars → Option Nat
  | [] => none
  | c :: rest =>
    if (c = '1' || c = '2' || c = '3')
        && (match prev with | none => true | some p => !isWordChar p)
        && (match rest.head? with | none => true | some nx => !isWordChar nx) then
      some (c.toNat - 48)
    else searchSlotNumAux (some c) rest

def searchSlotNum (l : Chars) : Option Nat := searchSlotNumAux none l

-- ---------------------------------------------------------------------------
-- datetime as minutes since an arbitrary epoch
-- ---------------------------------------------------------------------------

/-- Python `dt.replace` with hour `h` and minute `m` (seconds and microseconds zeroed). -/
def dtReplace (t h m : Nat) : Nat := t / 1440 * 1440 + h * 60 + m

def pad2c (n : Nat) : Chars := if n < 10 then '0' :: natChars n else natChars n

/-- Model of `strftime("%I:%M %p")`. -/
def fmt12 (t : Nat) : Chars :=
  let h := t / 60 % 24
  let h12 := if h % 12 = 0 then 12 else h % 12
  pad2c h12 ++ ':' :: pad2c (t % 60) ++ (if h < 12 then cs (" AM") else cs (" PM"))

/-- Model of `strftime("%B %d, %Y at %I:%M %p")`, with the calendar-date part
abstracted to the day index (the development does not model the Gregorian
calendar; no claim depends on the date text). -/
def fmtDateTime (t : Nat) : Chars :=
  cs ("day ") ++ natChars (t / 1440) ++ cs (" at ") ++ fmt12 t

-- ---------------------------------------------------------------------------
-- ExtractedInfo and the JSON fragment used by the agent
-- ---------------------------------------------------------------------------

/-- The extraction record.  A missing key of the Python dict is `none`
(`has_time_info`: `false`, matching the truthiness of a missing key). -/
structure ExtractedInfo where
  has_time_info : Bool
  day : Option Chars
  time : Option Chars
  type : Option Chars
  duration : Option Chars
  deriving DecidableEq, Repr

def emptyInfo : ExtractedInfo :=
  { has_time_info := false, day := none, time := none, type := none, duration := none }

def jbool (b : Bool) : Chars := if b then cs ("true") else cs ("false")

def jfield (key : Chars) (v : Option Chars) : Chars :=
  match v with
  | some d => cs (", \"") ++ key ++ cs ("\": \"") ++ d ++ cs ("\"")
  | none => []

/-- Model of `json.dumps` of the dicts built by `_get_fallback_response` (insertion
order `has_time_info`, `day`, `time`, `type`; `duration` is never set there). -/
def jsonDumps (r : ExtractedInfo) : Chars :=
  cs ("\x7b\"has_time_info\": ") ++ jbool r.has_time_info
    ++ jfield (cs ("day")) r.day ++ jfield (cs ("time")) r.time
    ++ jfield (cs ("type")) r.type ++ cs ("\x7d")

inductive JVal where
  | jb : Bool → JVal
  | js : Chars → JVal
  deriving DecidableEq

def skipWs (l : Chars) : Chars := l.dropWhile isPySpace

/-- A JSON string without escapes, starting at an opening quote. -/
def parseJString (l : Chars) : Option (Chars × Chars) :=
  match l with
  | '"' :: rest =>
    let content := rest.takeWhile (fun c => c ≠ '"' && c ≠ '\\')
    match rest.drop content.length with
    | '"' :: rest2 => some (content, rest2)
    | _ => none
  | _ => none

def parseJVal (l : Chars) : Option (JVal × Chars) :=
  if (cs ("true")).isPrefixOf l then some (.jb true, l.drop 4)
  else if (cs ("false")).isPrefixOf l then some (.jb false, l.drop 5)
  else
    match parseJString l with
    | some (st, r) => some (.js st, r)
    | none => none

def parsePairs : Nat → Chars → Option (List (Chars × JVal) × Chars)
  | 0, _ => none
  | fuel + 1, l =>
    match parseJString (skipWs l) with
    | none => none
    | some (k, r1) =>
      match skipWs r1 with
      | ':' :: r2 =>
        match parseJVal (skipWs r2) with
        | none => none
        | some (v, r3) =>
          match skipWs r3 with
          | ',' :: r4 => (parsePairs fuel r4).map (fun pr => ((k, v) :: pr.1, pr.2))
          | r4 => some ([(k, v)], r4)
      | _ => none

def jvLookup (ps : List (Chars × JVal)) (k : String) : Option JVal :=
  (ps.reverse.find? (fun p => p.1 = cs k)).map (fun p => p.2)

/-- Build an `ExtractedInfo` from a parsed flat object, with Python dict-`get`
semantics (missing ↦ falsy / `none`; a non-string day/time/type is dropped,
a string `has_time_info` is read by truthiness). -/
def infoOfPairs (ps : List (Chars × JVal)) : ExtractedInfo :=
  let getStr := fun (k : String) =>
    match jvLookup ps k with
    | some (.js st) => some st
    | _ => none
  { has_time_info :=
      match jvLookup ps ("has_time_info") with
      | some (.jb b) => b
      | some (.js st) => !st.isEmpty
      | none => false
    day := getStr ("day"), time := getStr ("time"), type := getStr ("type"),
    duration := getStr ("duration") }

/-- Model of `json.loads` restricted to flat objects with boolean / escape-free string
values (the grammar `json.dumps` emits in the fallback); `none` models a
raised `JSONDecodeError`. -/
def jsonLoadInfo (l : Chars) : Option ExtractedInfo :=
  match skipWs l with
  | '\x7b' :: r =>
    match skipWs r with
    | '\x7d' :: r2 => if (skipWs r2).isEmpty then some (infoOfPairs []) else none
    | _ =>
      match parsePairs (r.length + 1) r with
      | some (ps, rem) =>
        match rem with
        | '\x7d' :: r3 => if (skipWs r3).isEmpty then some (infoOfPairs ps) else none
        | _ => none
      | none => none
  | _ => none

-- ---------------------------------------------------------------------------
-- Prompts (the f-strings of agent.py, verbatim; `\x7b`/`\x7d` are literal
-- braces, `\x27` a literal apostrophe)
-- ---------------------------------------------------------------------------

def intentPromptPre : Chars :=
  cs ("You are a smart calendar booking assistant. Analyze this user message and determine their intent.\n\nUser message: ")

def intentPromptSuf : Chars :=
  cs ("\n\nIntent categories:\n- book_appointment: User wants to schedule/book a meeting, call, appointment, or event\n- check_availability: User is asking about free time, availability, or when they\x27re free\n- general_conversation: Greetings, questions, or unclear requests\n\nExamples:\n- \"I want to schedule a call\" → book_appointment\n- \"Book a meeting for tomorrow\" → book_appointment\n- \"Do you have any free time?\" → check_availability\n- \"When am I available?\" → check_availability\n- \"Hi there\" → general_conversation\n\nRespond with ONLY the intent name (book_appointment, check_availability, or general_conversation).")

def intentPrompt (m : Chars) : Chars := intentPromptPre ++ '"' :: (m ++ '"' :: intentPromptSuf)

def extractPromptPre : Chars :=
  cs ("You are a smart calendar assistant. Extract booking details from this message.\n\nUser message: ")

def extractPromptSuf : Chars :=
  cs ("\n\nExtract these details:\n- day: The day mentioned (today, tomorrow, Monday, Friday, next week, etc.)\n- time: Specific time or time period (2 PM, afternoon, morning, 3-5 PM, etc.)\n- type: Type of meeting (call, meeting, appointment, interview, etc.)\n- duration: How long (1 hour, 30 minutes, etc.)\n\nReturn a JSON object with the extracted information. If the message contains time/scheduling information, set \"has_time_info\": true.\n\nExamples:\n\"Schedule a call for tomorrow afternoon\" → \x7b\"has_time_info\": true, \"day\": \"tomorrow\", \"time\": \"afternoon\", \"type\": \"call\"\x7d\n\"Meeting at 2 PM Friday\" → \x7b\"has_time_info\": true, \"day\": \"Friday\", \"time\": \"2 PM\", \"type\": \"meeting\"\x7d\n\"Just saying hi\" → \x7b\"has_time_info\": false\x7d\n\nReturn ONLY valid JSON:")

def extractPrompt (m : Chars) : Chars := extractPromptPre ++ '"' :: (m ++ '"' :: extractPromptSuf)

def convPromptPre : Chars :=
  cs ("You are a helpful calendar booking assistant. The user said: ")

def convPromptSuf : Chars :=
  cs ("\n\nContext: This is a calendar booking conversation. The user might be:\n- Greeting you\n- Asking for help\n- Asking about availability without specific times\n- Making unclear requests\n- Asking questions about the service\n\nRespond naturally and helpfully. Keep responses concise (1-2 sentences). Always guide them toward booking if appropriate.\n\nExamples:\n- \"Hi\" → \"Hi! I\x27m your calendar assistant. What would you like to schedule today?\"\n- \"Help\" → \"I can help you schedule meetings, check availability, and book appointments. What would you like to schedule?\"\n- \"What can you do?\" → \"I can schedule meetings, check your calendar availability, and book appointments. Just tell me when you\x27d like to meet!\"\n\nRespond naturally:")

def convPrompt (m : Chars) : Chars := convPromptPre ++ '"' :: (m ++ '"' :: convPromptSuf)

-- ---------------------------------------------------------------------------
-- `_get_fallback_response`
-- ---------------------------------------------------------------------------

def fallbackVerbs : List Chars :=
  [cs ("schedule"), cs ("book"), cs ("meeting"), cs ("call"), cs ("appointment")]

def fallbackAvail : List Chars :=
  [cs ("free"), cs ("available"), cs ("availability"), cs ("time")]

def fallbackTimeWords : List Chars :=
  [cs ("tomorrow"), cs ("today"), cs ("monday"), cs ("tuesday"), cs ("wednesday"),
    cs ("thursday"), cs ("friday"), cs ("saturday"), cs ("sunday"), cs ("next week"),
    cs ("pm"), cs ("am"), cs ("afternoon"), cs ("morning"), cs ("evening")]

/-- Model of `prompt.split('"')[1].lower()`. -/
def userMsgOf (prompt : Chars) : Chars := pyLower ((pySplit '"' prompt).getD 1 [])

/-- The dict built by the information-extraction branch of the fallback. -/
def fallbackExtractRecord (u : Chars) : ExtractedInfo :=
  if fallbackTimeWords.any (fun w => containsList w u) then
    { has_time_info := true
      day :=
        if containsList (cs ("tomorrow")) u then some (cs ("tomorrow"))
        else if containsList (cs ("today")) u then some (cs ("today"))
        else if containsList (cs ("friday")) u then some (cs ("Friday"))
        else if containsList (cs ("monday")) u then some (cs ("Monday"))
        else if containsList (cs ("next week")) u then some (cs ("next week"))
        else none
      time :=
        if containsList (cs ("2 pm")) u || containsList (cs ("2pm")) u then some (cs ("2 PM"))
        else if containsList (cs ("afternoon")) u then some (cs ("afternoon"))
        else if containsList (cs ("morning")) u then some (cs ("morning"))
        else none
      type := some
        (if containsList (cs ("call")) u then cs ("call")
          else if containsList (cs ("meeting")) u then cs ("meeting")
          else cs ("appointment"))
      duration := none }
  else emptyInfo

def get_fallback_response (prompt : Chars) : Chars :=
  let pl := pyLower prompt
  if containsList (cs ("intent")) pl && containsList (cs ("analyze this user message")) pl then
    if containsList [ '"' ] prompt then
      let u := userMsgOf prompt
      if fallbackVerbs.any (fun w => containsList w u) then cs ("book_appointment")
      else if fallbackAvail.any (fun w => containsList w u) then cs ("check_availability")
      else cs ("general_conversation")
    else cs ("book_appointment")
  else if containsList (cs ("extract booking information")) pl then
    if containsList [ '"' ] prompt then jsonDumps (fallbackExtractRecord (userMsgOf prompt))
    else cs ("\x7b\"has_time_info\": false\x7d")
  else if containsList (cs ("calendar booking assistant")) pl then
    if containsList [ '"' ] prompt then
      let u := userMsgOf prompt
      if [cs ("hi"), cs ("hello"), cs ("hey")].any (fun w => containsList w u) then
        cs ("Hi! I\x27m your calendar assistant. What would you like to schedule today?")
      else if [cs ("help"), cs ("what"), cs ("how")].any (fun w => containsList w u) then
        cs ("I can help you schedule meetings, check availability, and book appointments. What would you like to schedule?")
      else cs ("I\x27d be happy to help you schedule something! What would you like to book?")
    else cs ("I can help you schedule appointments. What would you like to book?")
  else cs ("I can help you schedule appointments. What would you like to book?")

-- ---------------------------------------------------------------------------
-- NLU oracle and `_call_llm`
-- ---------------------------------------------------------------------------

/-- The external text-generation collaborator: `available` is
`LLM_AVAILABLE and model`, `generate` the Gemini call (`.error` = raised). -/
structure NLU where
  available : Bool
  generate : Chars → Except Unit Chars

def call_llm (nlu : NLU) (prompt : Chars) : Chars :=
  if nlu.available then
    match nlu.generate prompt with
    | .ok t => pyStrip t
    | .error _ => get_fallback_response prompt
  else get_fallback_response prompt

/-- Model of `_understand_intent`: LLM (or fallback) answer, stripped and lowered. -/
def understand_intent (nlu : NLU) (message : Chars) : Chars :=
  pyLower (pyStrip (call_llm nlu (intentPrompt message)))

-- ---------------------------------------------------------------------------
-- `_regex_extract` and `_extract_details`
-- ---------------------------------------------------------------------------

def dayAlts : List Chars := [cs ("today"), cs ("tomorrow")]

def weekdayAlts : List Chars :=
  [cs ("monday"), cs ("tuesday"), cs ("wednesday"), cs ("thursday"),
    cs ("friday"), cs ("saturday"), cs ("sunday")]

/-- The time-pattern loop of `_regex_extract` on the lowered message. -/
def regexTimeOf (m : Chars) : Option Chars :=
  match searchClock m with
  | some g => some g.1
  | none =>
    match searchAlts [cs ("morning"), cs ("afternoon"), cs ("evening")] m with
    | some t => some t
    | none => searchAlts [cs ("noon"), cs ("midnight")] m

/-- The day-pattern loop of `_regex_extract` on the lowered message. -/
def regexDayOf (m : Chars) : Option Chars :=
  match searchAlts dayAlts m with
  | some d => some d
  | none =>
    match searchAlts weekdayAlts m with
    | some d => some d
    | none => scanFor matchNextAt m

def regex_extract (message : Chars) : ExtractedInfo :=
  let m := pyLower message
  { has_time_info := (regexTimeOf m).isSome || (regexDayOf m).isSome
    day := regexDayOf m
    time := regexTimeOf m
    type := some
      (if containsList (cs ("call")) m then cs ("call")
        else if containsList (cs ("meeting")) m then cs ("meeting")
        else if containsList (cs ("appointment")) m then cs ("appointment")
        else cs ("meeting"))
    duration := none }

/-- The ```json fence stripping and `strip` applied before `json.loads`. -/
def cleanResponse (r : Chars) : Chars :=
  let r1 := pyStrip r
  let r2 := if (cs ("```json")).isPrefixOf r1 then r1.drop 7 else r1
  let r3 := if (cs ("```")).isSuffixOf r2 then r2.take (r2.length - 3) else r2
  pyStrip r3

def extract_details (nlu : NLU) (message : Chars) : ExtractedInfo :=
  match jsonLoadInfo (cleanResponse (call_llm nlu (extractPrompt message))) with
  | some e => e
  | none => regex_extract message

-- ---------------------------------------------------------------------------
-- `_parse_date` and the time parsing of `_direct_book_appointment`
-- ---------------------------------------------------------------------------

/-- Model of `_parse_date` (weekday 0 = Monday = day index ≡ 0 mod 7; the epoch
alignment is arbitrary and unused by any claim). -/
def parse_date (now : Nat) (day_str : Chars) : Nat :=
  let d := pyLower day_str
  if containsList (cs ("today")) d then now
  else if containsList (cs ("tomorrow")) d then now + 1440
  else if containsList (cs ("monday")) d then now + (7 - now / 1440 % 7) * 1440
  else now + 1440

def hourFrom12 (g1 : Nat) (pm : Bool) : Nat :=
  if pm ∧ g1 ≠ 12 then g1 + 12
  else if ¬pm ∧ g1 = 12 then 0
  else g1

/-- The hour/minute chain of `_direct_book_appointment` (default 9:00). -/
def parseHourMinute (ts : Chars) : Nat × Nat :=
  if containsList (cs ("8pm")) ts || containsList (cs ("8 pm")) ts then (20, 0)
  else if containsList (cs ("8am")) ts || containsList (cs ("8 am")) ts then (8, 0)
  else if containsList (cs ("9pm")) ts || containsList (cs ("9 pm")) ts then (21, 0)
  else if containsList (cs ("9am")) ts || containsList (cs ("9 am")) ts then (9, 0)
  else if containsList (cs ("10pm")) ts || containsList (cs ("10 pm")) ts then (22, 0)
  else if containsList (cs ("10am")) ts || containsList (cs ("10 am")) ts then (10, 0)
  else if containsList (cs ("11pm")) ts || containsList (cs ("11 pm")) ts then (23, 0)
  else if containsList (cs ("11am")) ts || containsList (cs ("11 am")) ts then (11, 0)
  else if containsList (cs ("12pm")) ts || containsList (cs ("12 pm")) ts
      || containsList (cs ("noon")) ts then (12, 0)
  else if containsList (cs ("12am")) ts || containsList (cs ("12 am")) ts
      || containsList (cs ("midnight")) ts then (0, 0)
  else if containsList (cs ("afternoon")) ts then (14, 0)
  else if containsList (cs ("morning")) ts then (9, 0)
  else if containsList (cs ("evening")) ts then (18, 0)
  else
    match searchClock ts with
    | some (_, g1, g2, pm) => (hourFrom12 g1 pm, g2)
    | none =>
      match searchHour ts with
      | some (g1, pm) => (hourFrom12 g1 pm, 0)
      | none => (9, 0)

-- ---------------------------------------------------------------------------
-- calendar_service.py
-- ---------------------------------------------------------------------------

/-- The external Google-calendar collaborator.  `realEventsList` is the
outcome of `events().list()` (busy intervals, as minutes), `realCreate` the
outcome of `events().insert()` (event id and link); `.error` = raised. -/
structure CalendarEnv where
  mockMode : Bool
  realEventsList : Except Unit (List (Nat × Nat))
  realCreate : Except Unit (Chars × Chars)

structure CalSlot where
  start_time : Nat
  end_time : Nat
  available : Bool
  title : Chars
  deriving DecidableEq, Repr

def slotTitle (dur : Nat) : Chars := cs ("Available ") ++ natChars dur ++ cs ("min slot")

/-- Model of `_get_mock_available_slots`. -/
def mock_available_slots (now date dur : Nat) (wh : Nat × Nat) : List CalSlot :=
  (([9, 11, 14, 16].filter (fun h => h < wh.2)).filterMap (fun h =>
    let s := dtReplace date h 0
    if now < s then some ⟨s, s + dur, true, slotTitle dur⟩ else none)).take 3

/-- The while-loop of `_get_real_available_slots` (slot every 30 minutes,
skipped on overlap with an existing event or when not after `now`). -/
def real_slots_aux (now dayEnd dur : Nat) (events : List (Nat × Nat)) (current : Nat) :
    List CalSlot :=
  if h : current + dur ≤ dayEnd then
    let slotEnd := current + dur
    let isAvail := events.all (fun ev => !(decide (current < ev.2) && decide (ev.1 < slotEnd)))
    let rest := real_slots_aux now dayEnd dur events (current + 30)
    if isAvail && decide (now < current) then ⟨current, slotEnd, true, slotTitle dur⟩ :: rest
    else rest
  else []
termination_by dayEnd + 1 - current
decreasing_by omega

/-- Model of `_get_real_available_slots`. -/
def real_available_slots (now date dur : Nat) (wh : Nat × Nat)
    (events : List (Nat × Nat)) : List CalSlot :=
  (real_slots_aux now (dtReplace date wh.2 0) dur events (dtReplace date wh.1 0)).take 5

/-- Model of `get_available_slots` (mock mode, or real with fallback to mock on error). -/
def get_available_slots (cal : CalendarEnv) (now date dur : Nat) (wh : Nat × Nat) :
    List CalSlot :=
  if cal.mockMode then mock_available_slots now date dur wh
  else
    match cal.realEventsList with
    | .ok evs => real_available_slots now date dur wh evs
    | .error _ => mock_available_slots now date dur wh

structure CreateResult where
  success : Bool
  event_id : Chars
  event_link : Chars
  message : Chars
  deriving DecidableEq, Repr

/-- Model of `_create_mock_event` (`int(start_time.timestamp())` = minutes × 60). -/
def mock_create_event (title : Chars) (s e : Nat) (desc : Chars) : CreateResult :=
  let eid := cs ("mock_event_") ++ natChars (s * 60)
  { success := true
    event_id := eid
    event_link := cs ("https://calendar.google.com/calendar/event?eid=") ++ eid
    message := cs ("✅ Mock event \x27") ++ title ++ cs ("\x27 created for ") ++ fmtDateTime s }

/-- Model of `_create_real_event` given a successful API insert. -/
def real_create_event (title : Chars) (s e : Nat) (desc eid link : Chars) : CreateResult :=
  { success := true
    event_id := eid
    event_link := link
    message := cs ("✅ Event \x27") ++ title ++ cs ("\x27 created for ") ++ fmtDateTime s }

/-- Model of `create_event` (mock mode, or real with fallback to mock on error). -/
def create_event (cal : CalendarEnv) (title : Chars) (s e : Nat) (desc : Chars) :
    CreateResult :=
  if cal.mockMode then mock_create_event title s e desc
  else
    match cal.realCreate with
    | .ok pr => real_create_event title s e desc pr.1 pr.2
    | .error _ => mock_create_event title s e desc

-- ---------------------------------------------------------------------------
-- Agent data model
-- ---------------------------------------------------------------------------

/-- A slot as stored by `_check_availability` (ISO strings kept as numeric
times; `display` is `strftime("%I:%M %p")`). -/
structure DisplaySlot where
  start_time : Nat
  end_time : Nat
  display : Chars
  available : Bool
  deriving DecidableEq, Repr

structure ChatMsg where
  role : Chars
  content : Chars
  deriving DecidableEq, Repr

structure Session where
  messages : List ChatMsg
  user_intent : Chars
  extracted_info : ExtractedInfo
  available_slots : List DisplaySlot
  booking_confirmed : Bool
  session_id : Chars
  deriving DecidableEq, Repr

abbrev Sessions := Chars → Option Session

def updateS (s : Sessions) (k : Chars) (v : Session) : Sessions :=
  fun k2 => if k2 = k then some v else s k2

def newSession (sid : Chars) : Session :=
  { messages := [], user_intent := [], extracted_info := emptyInfo,
    available_slots := [], booking_confirmed := false, session_id := sid }

structure BookingDetails where
  start_time : Nat
  end_time : Nat
  title : Chars
  booking_id : Chars
  event_link : Chars
  deriving DecidableEq, Repr

structure BookingOutcome where
  success : Bool
  message : Chars
  booking_details : Option BookingDetails
  deriving DecidableEq, Repr

/-- One observed call to `calendar_service.create_event`. -/
structure CreateCall where
  title : Chars
  start_time : Nat
  end_time : Nat
  deriving DecidableEq, Repr

-- ---------------------------------------------------------------------------
-- `_check_availability`, `_suggest_slots`, `_handle_conversation`
-- ---------------------------------------------------------------------------

def check_availability (cal : CalendarEnv) (now : Nat) (info : ExtractedInfo) :
    List DisplaySlot :=
  let target := parse_date now (info.day.getD (cs ("tomorrow")))
  let slots := get_available_slots cal now target 60 (9, 17)
  (slots.take 3).map (fun sl =>
    { start_time := sl.start_time, end_time := sl.end_time,
      display := fmt12 sl.start_time, available := true })

def slotLinesAux (i : Nat) : List DisplaySlot → Chars
  | [] => []
  | sl :: rest => natChars i ++ cs (". ") ++ sl.display ++ '\n' :: slotLinesAux (i + 1) rest

def suggest_slots (slots : List DisplaySlot) (info : ExtractedInfo) : Chars :=
  let t := info.type.getD (cs ("meeting"))
  if slots.isEmpty then
    cs ("I couldn\x27t find any available times. Would you like to try a different day?")
  else
    cs ("I found some available times for your ") ++ t ++ cs (":\n\n")
      ++ slotLinesAux 1 slots
      ++ cs ("\nWhich time works best for you? Just reply with the number.")

def conv_fallback (message : Chars) : Chars :=
  let ml := pyLower message
  if [cs ("hi"), cs ("hello"), cs ("hey"), cs ("good morning"), cs ("good afternoon")].any
      (fun w => containsList w ml) then
    cs ("Hi! I\x27m your calendar assistant. What would you like to schedule today?")
  else if [cs ("help"), cs ("what"), cs ("how")].any (fun w => containsList w ml) then
    cs ("I can help you schedule meetings, check availability, and book appointments. What would you like to schedule?")
  else
    cs ("I\x27d be happy to help you schedule something! Try saying \x27I want to schedule a call for tomorrow afternoon\x27 or \x27Do you have any free time this Friday?\x27")

def handle_conversation (nlu : NLU) (message : Chars) (st : Session) : Chars :=
  if st.available_slots.isEmpty = false ∧ (searchSlotNum message).isSome then
    match searchSlotNum message with
    | some n =>
      if h : n - 1 < st.available_slots.length then
        cs ("Perfect! You\x27ve selected ") ++ (st.available_slots.get ⟨n - 1, h⟩).display
          ++ cs (". I\x27ll book this time slot for you. The meeting has been scheduled!")
      else cs ("Please select 1, 2, or 3 for your preferred time.")
    | none => cs ("Please select 1, 2, or 3 for your preferred time.")
  else
    let resp := pyStrip (call_llm nlu (convPrompt message))
    if resp.length < 10 then conv_fallback message else resp

-- ---------------------------------------------------------------------------
-- `_direct_book_appointment`
-- ---------------------------------------------------------------------------

def pyCapitalize (l : Chars) : Chars :=
  match l with
  | [] => []
  | c :: r => c.toUpper :: pyLower r

def direct_book_hm (info : ExtractedInfo) : Nat × Nat :=
  parseHourMinute (pyLower (info.time.getD []))

def direct_book_start (now : Nat) (info : ExtractedInfo) : Nat :=
  dtReplace (parse_date now (info.day.getD (cs ("tomorrow"))))
    (direct_book_hm info).1 (direct_book_hm info).2

/-- Model of `_direct_book_appointment`.  An out-of-range hour/minute makes
`datetime.replace` raise, landing in the function's own `except` branch. -/
def direct_book (cal : CalendarEnv) (now : Nat) (info : ExtractedInfo) :
    BookingOutcome × List CreateCall :=
  let hm := direct_book_hm info
  if 23 < hm.1 ∨ 59 < hm.2 then
    ({ success := false
       message := cs ("I had trouble booking that time. Let me show you some available slots instead.")
       booking_details := none }, [])
  else
    let start := direct_book_start now info
    let endt := start + 60
    if start ≤ now then
      ({ success := false
         message := cs ("Sorry, ") ++ fmt12 start ++ cs (" is in the past. Please choose a future time.")
         booking_details := none }, [])
    else
      let mtype := info.type.getD (cs ("Meeting"))
      let title := pyCapitalize mtype ++ cs (" - ") ++ fmt12 start
      let cres := create_event cal title start endt (cs ("Booked via Calendar Agent - ") ++ mtype)
      if cres.success then
        ({ success := true, message := cres.message
           booking_details := some ⟨start, endt, title, cres.event_id, cres.event_link⟩ },
          [⟨title, start, endt⟩])
      else
        ({ success := false
           message := cs ("Failed to create calendar event. Please try again.")
           booking_details := none }, [⟨title, start, endt⟩])

-- ---------------------------------------------------------------------------
-- `process_message`
-- ---------------------------------------------------------------------------

structure AgentResult where
  response : Chars
  available_slots : List DisplaySlot
  session_id : Chars
  intent : Chars
  extracted_info : ExtractedInfo
  deriving DecidableEq, Repr

structure ProcResult where
  out : AgentResult
  sessions : Sessions
  calls : List CreateCall

/-- The intent-dispatch of `process_message`: everything between the two
`messages.append` calls.  Returns (response, updated session, create calls). -/
def process_core (cal : CalendarEnv) (nlu : NLU) (now : Nat) (intent message : Chars)
    (st1 : Session) : Chars × Session × List CreateCall :=
  if containsList (cs ("book_appointment")) intent then
    let info := extract_details nlu message
    if info.has_time_info then
      let db := direct_book cal now info
      if db.1.success then
        (db.1.message, { st1 with booking_confirmed := true, available_slots := [] }, db.2)
      else
        let slots := check_availability cal now info
        (db.1.message ++ cs ("\n\n") ++ suggest_slots slots info,
          { st1 with available_slots := slots, extracted_info := info }, db.2)
    else
      (cs ("I\x27d love to help you schedule that! Could you tell me when you\x27d like to meet? For example: \x27tomorrow at 2 PM\x27 or \x27Friday morning\x27."),
        st1, [])
  else if containsList (cs ("check_availability")) intent then
    let info := extract_details nlu message
    if info.has_time_info then
      let slots := check_availability cal now info
      let day := info.day.getD (cs ("that day"))
      let resp :=
        if slots.isEmpty then
          cs ("Sorry, you don\x27t have any free time slots for ") ++ day
            ++ cs (". Would you like to try a different day?")
        else
          cs ("Let me check your availability for ") ++ day ++ cs (":\n\n")
            ++ cs ("Here are your free time slots:\n\n") ++ slotLinesAux 1 slots
            ++ cs ("\nWould you like to book any of these times? Just reply with the number.")
      (resp, { st1 with available_slots := slots, extracted_info := info }, [])
    else
      (cs ("I can check your availability! Which day are you interested in? For example: \x27tomorrow\x27, \x27Friday\x27, or \x27next week\x27."),
        st1, [])
  else
    (handle_conversation nlu message st1, st1, [])

/-- The tail of `process_message`: append the assistant message, store the
session, build the returned dict. -/
def finishProc (sessions : Sessions) (sid intent : Chars) (calls : List CreateCall)
    (st : Session) (resp : Chars) : ProcResult :=
  let st2 := { st with messages := st.messages ++ [⟨cs ("assistant"), resp⟩] }
  { out :=
      { response := resp, available_slots := st2.available_slots, session_id := sid,
        intent := intent, extracted_info := st2.extracted_info }
    sessions := updateS sessions sid st2
    calls := calls }

def process_message (cal : CalendarEnv) (nlu : NLU) (now : Nat) (message sid : Chars)
    (sessions : Sessions) : ProcResult :=
  let st0 := (sessions sid).getD (newSession sid)
  let st1 := { st0 with messages := st0.messages ++ [⟨cs ("user"), message⟩] }
  let intent := understand_intent nlu message
  let pc := process_core cal nlu now intent message st1
  finishProc sessions sid intent pc.2.2 pc.2.1 pc.1

-- ---------------------------------------------------------------------------
-- `confirm_booking`
-- ---------------------------------------------------------------------------

structure ConfirmResult where
  out : BookingOutcome
  sessions : Sessions
  calls : List CreateCall

def confirm_booking (cal : CalendarEnv) (sid : Chars) (slot_index : Int)
    (sessions : Sessions) : ConfirmResult :=
  match sessions sid with
  | none =>
    { out := { success := false, message := cs ("Session not found"), booking_details := none }
      sessions := sessions, calls := [] }
  | some st =>
    let slots := st.available_slots
    if h : 0 ≤ slot_index ∧ slot_index < (slots.length : Int) then
      let sl := slots.get ⟨slot_index.toNat, by omega⟩
      let mtype := st.extracted_info.type.getD (cs ("Meeting"))
      let title := pyCapitalize mtype ++ cs (" - ") ++ fmt12 sl.start_time
      let cres := create_event cal title sl.start_time sl.end_time
        (cs ("Booked via Calendar Agent - ") ++ mtype)
      if cres.success then
        { out :=
            { success := true, message := cres.message
              booking_details := some ⟨sl.start_time, sl.end_time, title, cres.event_id, cres.event_link⟩ }
          sessions := updateS sessions sid { st with booking_confirmed := true }
          calls := [⟨title, sl.start_time, sl.end_time⟩] }
      else
        { out :=
            { success := false, message := cs ("Failed to create calendar event. Please try again.")
              booking_details := none }
          sessions := sessions, calls := [⟨title, sl.start_time, sl.end_time⟩] }
    else
      { out := { success := false, message := cs ("Invalid slot selection"), booking_details := none }
        sessions := sessions, calls := [] }

-- ---------------------------------------------------------------------------
-- Concrete environments used by witnesses and counterexamples
-- ---------------------------------------------------------------------------

/-- NLU unavailable (the fallback path: `LLM_AVAILABLE = False`). -/
def offNlu : NLU := ⟨false, fun _ => .error ()⟩

/-- Calendar in mock mode (the repository's default without Google libs). -/
def mockCal : CalendarEnv := ⟨true, .error (), .error ()⟩

/-- Real-mode calendar whose API calls raise. -/
def errCal : CalendarEnv := ⟨false, .error (), .error ()⟩

def emptySessions : Sessions := fun _ => none

-- ---------------------------------------------------------------------------
-- C4: availability slots never start in the past
-- ---------------------------------------------------------------------------

theorem mock_slots_future {now date dur : Nat} {wh : Nat × Nat} :
    ∀ sl ∈ mock_available_slots now date dur wh, now < sl.start_time := by
  intro sl h
  have h2 := List.take_subset 3 _ h
  simp only [List.mem_filterMap] at h2
  obtain ⟨a, _, hf⟩ := h2
  by_cases hc : now < dtReplace date a 0
  · simp only [if_pos hc] at hf
    cases hf
    exact hc
  · simp only [if_neg hc] at hf
    exact absurd hf (by simp)

theorem real_slots_aux_future (now dayEnd dur : Nat) (events : List (Nat × Nat)) :
    ∀ current, ∀ sl ∈ real_slots_aux now dayEnd dur events current, now < sl.start_time := by
  have H : ∀ fuelm current, dayEnd + 1 - current ≤ fuelm →
      ∀ sl ∈ real_slots_aux now dayEnd dur events current, now < sl.start_time := by
    intro fuelm
    induction fuelm with
    | zero =>
      intro current hle sl hmem
      rw [real_slots_aux] at hmem
      rw [dif_neg (by omega)] at hmem
      simp at hmem
    | succ f ih =>
      intro current hle sl hmem
      rw [real_slots_aux] at hmem
      by_cases hg : current + dur ≤ dayEnd
      · rw [dif_pos hg] at hmem
        simp only [] at hmem
        by_cases hcnd : ((events.all fun ev => !(decide (current < ev.2) && decide (ev.1 < current + dur)))
            && decide (now < current)) = true
        · rw [if_pos hcnd] at hmem
          rcases List.mem_cons.mp hmem with rfl | hmem2
          · simp only [Bool.and_eq_true, decide_eq_true_eq] at hcnd
            exact hcnd.2
          · exact ih (current + 30) (by omega) sl hmem2
        · rw [if_neg hcnd] at hmem
          exact ih (current + 30) (by omega) sl hmem
      · rw [dif_neg hg] at hmem
        simp at hmem
  intro current
  exact H (dayEnd + 1 - current) current le_rfl

/-- C4: for every date and duration, every slot returned by the availability
engine — mock path, real path, and the dispatching `get_available_slots` for
any calendar environment — starts strictly after the time of the call. -/
theorem C4_slots_never_past (now date dur : Nat) (wh : Nat × Nat) :
    (∀ sl ∈ mock_available_slots now date dur wh, now < sl.start_time) ∧
    (∀ events, ∀ sl ∈ real_available_slots now date dur wh events, now < sl.start_time) ∧
    (∀ cal : CalendarEnv, ∀ sl ∈ get_available_slots cal now date dur wh, now < sl.start_time) := by
  have hreal : ∀ events, ∀ sl ∈ real_available_slots now date dur wh events, now < sl.start_time := by
    intro events sl h
    exact real_slots_aux_future now (dtReplace date wh.2 0) dur events _ sl (List.take_subset 5 _ h)
  refine ⟨fun sl h => mock_slots_future sl h, hreal, ?_⟩
  intro cal sl h
  unfold get_available_slots at h
  by_cases hm : cal.mockMode
  · rw [if_pos hm] at h
    exact mock_slots_future sl h
  · rw [if_neg hm] at h
    cases he : cal.realEventsList with
    | ok evs => rw [he] at h; exact hreal evs sl h
    | error u => rw [he] at h; exact mock_slots_future sl h

theorem C4_witness : (0 : Nat) < 540 := by
  have h := (C4_slots_never_past 0 0 60 (9, 17)).1 ⟨540, 600, true, slotTitle 60⟩ (by decide)
  simpa using h

-- ---------------------------------------------------------------------------
-- C8: at most 3 offered slots, all marked available
-- ---------------------------------------------------------------------------

/-- C8: for every extracted-info record (and any calendar environment and
call time), `_check_availability` returns at most 3 slots, each with
`available = true`. -/
theorem C8_offered_slots_bounded (cal : CalendarEnv) (now : Nat) (info : ExtractedInfo) :
    (check_availability cal now info).length ≤ 3 ∧
    ∀ sl ∈ check_availability cal now info, sl.available = true := by
  constructor
  · simp only [check_availability, List.length_map, List.length_take]
    exact Nat.min_le_left 3 _
  · intro sl h
    simp only [check_availability, List.mem_map] at h
    obtain ⟨a, _, rfl⟩ := h
    rfl

theorem C8_witness :
    (check_availability mockCal 0 emptyInfo).length ≤ 3 ∧
    (⟨1980, 2040, fmt12 1980, true⟩ : DisplaySlot).available = true :=
  ⟨(C8_offered_slots_bounded mockCal 0 emptyInfo).1,
    (C8_offered_slots_bounded mockCal 0 emptyInfo).2 ⟨1980, 2040, fmt12 1980, true⟩ (by decide)⟩

-- ---------------------------------------------------------------------------
-- C5: out-of-bounds confirm_booking is failure without side effects
-- ---------------------------------------------------------------------------

/-- C5: for every existing session and every `slot_index` outside
`[0, |offered slots|)`, `confirm_booking` fails, creates no event, and leaves
the session store untouched. -/
theorem C5_confirm_out_of_bounds (cal : CalendarEnv) (sid : Chars) (idx : Int)
    (sessions : Sessions) (st : Session) (hs : sessions sid = some st)
    (hidx : idx < 0 ∨ (st.available_slots.length : Int) ≤ idx) :
    (confirm_booking cal sid idx sessions).out.success = false ∧
    (confirm_booking cal sid idx sessions).sessions = sessions ∧
    (confirm_booking cal sid idx sessions).calls = [] := by
  unfold confirm_booking
  rw [hs]
  dsimp only []
  rw [dif_neg (by omega : ¬(0 ≤ idx ∧ idx < (st.available_slots.length : Int)))]
  exact ⟨rfl, rfl, rfl⟩

def c5st : Session :=
  { messages := [], user_intent := [], extracted_info := emptyInfo,
    available_slots := [⟨600, 660, fmt12 600, true⟩], booking_confirmed := false,
    session_id := cs ("s5") }

def c5sessions : Sessions := updateS emptySessions (cs ("s5")) c5st

theorem C5_witness :
    (confirm_booking mockCal (cs ("s5")) 5 c5sessions).out.success = false :=
  (C5_confirm_out_of_bounds mockCal (cs ("s5")) 5 c5sessions c5st (by decide) (by decide)).1

-- ---------------------------------------------------------------------------
-- C7: collaborator failures degrade to the fallbacks, nothing propagates
-- ---------------------------------------------------------------------------

/-- C7: every external failure mode degrades to the corresponding fallback
value instead of propagating — an unavailable NLU and a raising NLU both
yield `_get_fallback_response`; a JSON-parse failure yields the regex
extraction; a raising calendar API yields the mock slots / mock event.  (All
model functions are total, so no case raises to its caller.) -/
theorem C7_failures_degrade :
    (∀ g p, call_llm ⟨false, g⟩ p = get_fallback_response p) ∧
    (∀ g p, g p = .error () → call_llm ⟨true, g⟩ p = get_fallback_response p) ∧
    (∀ nlu m, jsonLoadInfo (cleanResponse (call_llm nlu (extractPrompt m))) = none →
      extract_details nlu m = regex_extract m) ∧
    (∀ cal now date dur wh, cal.realEventsList = .error () →
      get_available_slots cal now date dur wh = mock_available_slots now date dur wh) ∧
    (∀ cal t a b d, cal.realCreate = .error () →
      create_event cal t a b d = mock_create_event t a b d) := by
  refine ⟨fun g p => rfl, fun g p h => ?_, fun nlu m h => ?_,
    fun cal now date dur wh h => ?_, fun cal t a b d h => ?_⟩
  · simp [call_llm, h]
  · simp only [extract_details, h]
  · by_cases hm : cal.mockMode <;> simp [get_available_slots, hm, h]
  · by_cases hm : cal.mockMode <;> simp [create_event, hm, h]

theorem C7_witness :
    call_llm ⟨false, fun _ => .error ()⟩ [] = get_fallback_response [] ∧
    call_llm ⟨true, fun _ => .error ()⟩ [] = get_fallback_response [] ∧
    extract_details offNlu (cs ("hi")) = regex_extract (cs ("hi")) ∧
    get_available_slots errCal 0 0 60 (9, 17) = mock_available_slots 0 0 60 (9, 17) ∧
    create_event errCal [] 0 60 [] = mock_create_event [] 0 60 [] :=
  ⟨C7_failures_degrade.1 _ [],
    C7_failures_degrade.2.1 _ [] rfl,
    C7_failures_degrade.2.2.1 offNlu (cs ("hi")) (by decide),
    C7_failures_degrade.2.2.2.1 errCal 0 0 60 (9, 17) rfl,
    C7_failures_degrade.2.2.2.2 errCal [] 0 60 [] rfl⟩

-- ---------------------------------------------------------------------------
-- C3: past-time rejection
-- ---------------------------------------------------------------------------

/-- C3 (amended): on the direct-booking path, a computed start time at or
before `now` (with an in-range hour/minute, i.e. no `datetime.replace`
exception) yields a failing result whose message contains the past-time
rejection, and `create_event` is never called.  `confirm_booking` performs no
such check (see the counterexample). -/
theorem C3_direct_booking_rejects_past (cal : CalendarEnv) (now : Nat)
    (info : ExtractedInfo)
    (hv : (direct_book_hm info).1 ≤ 23 ∧ (direct_book_hm info).2 ≤ 59)
    (hp : direct_book_start now info ≤ now) :
    (direct_book cal now info).1.success = false ∧
    containsList (cs (" is in the past")) (direct_book cal now info).1.message = true ∧
    (direct_book cal now info).2 = [] := by
  unfold direct_book
  rw [if_neg (by omega : ¬(23 < (direct_book_hm info).1 ∨ 59 < (direct_book_hm info).2))]
  dsimp only []
  rw [if_pos hp]
  refine ⟨rfl, ?_, rfl⟩
  show containsList _ ((cs ("Sorry, ") ++ fmt12 (direct_book_start now info))
    ++ cs (" is in the past. Please choose a future time.")) = true
  exact containsList_append_right _ (by decide)

def c3info : ExtractedInfo :=
  { has_time_info := true, day := some (cs ("today")), time := some (cs ("morning")),
    type := none, duration := none }

theorem C3_witness :
    (direct_book mockCal 720 c3info).1.success = false ∧
    containsList (cs (" is in the past")) (direct_book mockCal 720 c3info).1.message = true :=
  ⟨(C3_direct_booking_rejects_past mockCal 720 c3info (by decide) (by decide)).1,
    (C3_direct_booking_rejects_past mockCal 720 c3info (by decide) (by decide)).2.1⟩

def c3st : Session :=
  { messages := [], user_intent := [], extracted_info := emptyInfo,
    available_slots := [⟨480, 540, fmt12 480, true⟩], booking_confirmed := false,
    session_id := cs ("s3") }

def c3sessions : Sessions := updateS emptySessions (cs ("s3")) c3st

/-- C3 counterexample: confirming an offered slot performs no past-time
check.  At time `now = 1000` the stored slot starts at 480 (≤ now, i.e. in
the past), yet `confirm_booking` succeeds and calls `create_event` — so the
claim's "holds for every booking path, including confirming an offered
slot" is false (the confirm path never consults the clock at all). -/
theorem C3_counterexample :
    (480 : Nat) ≤ 1000 ∧
    (confirm_booking mockCal (cs ("s3")) 0 c3sessions).out.success = true ∧
    (confirm_booking mockCal (cs ("s3")) 0 c3sessions).calls =
      [⟨pyCapitalize (cs ("Meeting")) ++ cs (" - ") ++ fmt12 480, 480, 540⟩] := by
  exact ⟨by omega, by decide, by decide⟩

-- ---------------------------------------------------------------------------
-- C1: fallback intent classification
-- ---------------------------------------------------------------------------

theorem userMsgOf_quoted (pre suf m : Chars) (hpre : '"' ∉ pre) (hm : '"' ∉ m) :
    userMsgOf (pre ++ '"' :: (m ++ '"' :: suf)) = pyLower m := by
  unfold userMsgOf
  rw [pySplit_append_cons pre _ hpre, pySplit_append_cons m _ hm]
  rfl

theorem quote_in_quoted (pre suf m : Chars) :
    containsList [ '"' ] (pre ++ '"' :: (m ++ '"' :: suf)) = true := by
  apply containsList_append_right
  simp [containsList, List.isPrefixOf]

theorem contains_lower_quoted {n : Chars} (pre suf m : Chars)
    (h : containsList n (pyLower pre) = true) :
    containsList n (pyLower (pre ++ '"' :: (m ++ '"' :: suf))) = true := by
  unfold pyLower
  rw [List.map_append]
  exact containsList_append_left _ h

/-- C1 (amended): for every message that contains no double-quote character
and contains a scheduling verb ("book", "schedule" or "meeting",
case-insensitively), `_understand_intent` under the fallback path (NLU
unavailable) returns `book_appointment`.  (A quote inside the message breaks
the fallback's `prompt.split('"')[1]` recovery of the message — see the
counterexample.) -/
theorem C1_fallback_intent_book (g : Chars → Except Unit Chars) (m : Chars)
    (hq : '"' ∉ m)
    (hv : containsList (cs ("book")) (pyLower m) = true ∨
      containsList (cs ("schedule")) (pyLower m) = true ∨
      containsList (cs ("meeting")) (pyLower m) = true) :
    understand_intent ⟨false, g⟩ m = cs ("book_appointment") := by
  have h1 : containsList (cs ("intent")) (pyLower (intentPrompt m)) = true :=
    contains_lower_quoted _ _ _ (by decide)
  have h2 : containsList (cs ("analyze this user message")) (pyLower (intentPrompt m)) = true :=
    contains_lower_quoted _ _ _ (by decide)
  have h3 : containsList [ '"' ] (intentPrompt m) = true := quote_in_quoted _ _ _
  have h4 : userMsgOf (intentPrompt m) = pyLower m :=
    userMsgOf_quoted _ _ _ (by decide) hq
  have h5 : (fallbackVerbs.any fun w => containsList w (pyLower m)) = true := by
    rcases hv with h | h | h <;> simp [fallbackVerbs, h]
  have hresp : get_fallback_response (intentPrompt m) = cs ("book_appointment") := by
    unfold get_fallback_response
    dsimp only []
    rw [h1, h2]
    simp only [Bool.and_self, if_true]
    rw [h3]
    simp only [if_true]
    rw [h4, h5]
    simp only [if_true]
  show pyLower (pyStrip (call_llm ⟨false, g⟩ (intentPrompt m))) = cs ("book_appointment")
  have hcall : call_llm ⟨false, g⟩ (intentPrompt m) = get_fallback_response (intentPrompt m) := rfl
  rw [hcall, hresp]
  decide

theorem C1_witness :
    understand_intent offNlu (cs ("please book a meeting")) = cs ("book_appointment") :=
  C1_fallback_intent_book _ _ (by decide) (Or.inl (by decide))

/-- C1 counterexample: the message `say "book now"` contains the scheduling
verb "book", yet the fallback intent classifier returns
`general_conversation`: the fallback recovers the user message as
`prompt.split('"')[1]`, which for a message containing a quote yields only
the text before the message's first quote (here `say `). -/
theorem C1_counterexample :
    containsList (cs ("book")) (cs ("say \"book now\"")) = true ∧
    understand_intent offNlu (cs ("say \"book now\"")) = cs ("general_conversation") ∧
    understand_intent offNlu (cs ("say \"book now\"")) ≠ cs ("book_appointment") := by
  refine ⟨by decide, by decide, by decide⟩

-- ---------------------------------------------------------------------------
-- C2: fallback extraction populates the day
-- ---------------------------------------------------------------------------

/-- Every fallback answer to the extraction prompt that is not the
JSON-dumping branch fails `json.loads`, so `_extract_details` falls back to
`_regex_extract`. -/
theorem fallback_response_not_json (prompt : Chars)
    (hno : containsList (cs ("extract booking information")) (pyLower prompt) = false) :
    jsonLoadInfo (cleanResponse (get_fallback_response prompt)) = none := by
  unfold get_fallback_response
  dsimp only []
  by_cases h1 : (containsList (cs ("intent")) (pyLower prompt)
      && containsList (cs ("analyze this user message")) (pyLower prompt)) = true
  · rw [if_pos h1]
    by_cases hq : containsList [ '"' ] prompt = true
    · rw [if_pos hq]
      by_cases hv : (fallbackVerbs.any fun w => containsList w (userMsgOf prompt)) = true
      · rw [if_pos hv]; decide
      · rw [if_neg hv]
        by_cases ha : (fallbackAvail.any fun w => containsList w (userMsgOf prompt)) = true
        · rw [if_pos ha]; decide
        · rw [if_neg ha]; decide
    · rw [if_neg hq]; decide
  · rw [if_neg h1, if_neg (by rw [hno]; simp)]
    by_cases h3 : containsList (cs ("calendar booking assistant")) (pyLower prompt) = true
    · rw [if_pos h3]
      by_cases hq : containsList [ '"' ] prompt = true
      · rw [if_pos hq]
        by_cases hg : ([cs ("hi"), cs ("hello"), cs ("hey")].any
            fun w => containsList w (userMsgOf prompt)) = true
        · rw [if_pos hg]; decide
        · rw [if_neg hg]
          by_cases hh : ([cs ("help"), cs ("what"), cs ("how")].any
              fun w => containsList w (userMsgOf prompt)) = true
          · rw [if_pos hh]; decide
          · rw [if_neg hh]; decide
      · rw [if_neg hq]; decide
    · rw [if_neg h3]; decide

/-- The fixed text of the extraction prompt does not contain the fallback's
trigger phrase, so the trigger can only come from the message itself. -/
theorem extract_prompt_no_trigger (m : Chars)
    (h : containsList (cs ("extract booking information")) (pyLower m) = false) :
    containsList (cs ("extract booking information")) (pyLower (extractPrompt m)) = false := by
  have hc : Char.toLower '"' ∉ cs ("extract booking information") := by decide
  show containsList _ (List.map Char.toLower
    (extractPromptPre ++ '"' :: (m ++ '"' :: extractPromptSuf))) = false
  rw [List.map_append, List.map_cons, List.map_append, List.map_cons]
  rw [containsList_append_cons _ _ hc, containsList_append_cons _ _ hc]
  have hpre : containsList (cs ("extract booking information"))
      (List.map Char.toLower extractPromptPre) = false := by decide
  have hsuf : containsList (cs ("extract booking information"))
      (List.map Char.toLower extractPromptSuf) = false := by decide
  rw [hpre, hsuf]
  show (false || (containsList _ (pyLower m) || false)) = false
  rw [h]
  rfl

/-- Under the fallback path, extraction is `_regex_extract` whenever the
message does not itself contain the trigger phrase. -/
theorem extract_fallback_eq_regex (g : Chars → Except Unit Chars) (m : Chars)
    (hno : containsList (cs ("extract booking information")) (pyLower m) = false) :
    extract_details ⟨false, g⟩ m = regex_extract m := by
  unfold extract_details
  rw [show call_llm ⟨false, g⟩ (extractPrompt m) = get_fallback_response (extractPrompt m) from rfl]
  rw [fallback_response_not_json (extractPrompt m) (extract_prompt_no_trigger m hno)]

def dayTokens : List Chars :=
  [cs ("today"), cs ("tomorrow"), cs ("monday"), cs ("tuesday"), cs ("wednesday"),
    cs ("thursday"), cs ("friday"), cs ("saturday"), cs ("sunday")]

theorem regexDayOf_isSome (m : Chars)
    (hday : ∃ t ∈ dayTokens, containsList t m = true) :
    (regexDayOf m).isSome = true := by
  obtain ⟨t, ht, hc⟩ := hday
  unfold regexDayOf
  cases h1 : searchAlts dayAlts m with
  | some d => simp
  | none =>
    cases h2 : searchAlts weekdayAlts m with
    | some d => simp
    | none =>
      exfalso
      simp only [dayTokens, List.mem_cons, List.not_mem_nil, or_false] at ht
      rcases ht with rfl | rfl | rfl | rfl | rfl | rfl | rfl | rfl | rfl <;>
        first
        | exact absurd (searchAlts_isSome_of_mem (show _ ∈ dayAlts by decide) (by decide) hc)
            (by rw [h1]; simp)
        | exact absurd (searchAlts_isSome_of_mem (show _ ∈ weekdayAlts by decide) (by decide) hc)
            (by rw [h2]; simp)

/-- C2 (amended): for every message that contains a day token ("today",
"tomorrow" or a weekday name, case-insensitively) and does not contain the
phrase "extract booking information", fallback-path extraction returns a
record with `has_time_info = true` and a populated `day`.  (A message
containing that phrase reaches the fallback's dump-JSON branch, which only
populates `day` for a few tokens — see the counterexample.) -/
theorem C2_fallback_day_extraction (g : Chars → Except Unit Chars) (m : Chars)
    (hno : containsList (cs ("extract booking information")) (pyLower m) = false)
    (hday : ∃ t ∈ dayTokens, containsList t (pyLower m) = true) :
    (extract_details ⟨false, g⟩ m).has_time_info = true ∧
    ((extract_details ⟨false, g⟩ m).day).isSome = true := by
  rw [extract_fallback_eq_regex g m hno]
  have hdy := regexDayOf_isSome (pyLower m) hday
  unfold regex_extract
  dsimp only []
  rw [hdy]
  simp

theorem C2_witness :
    (extract_details offNlu (cs ("see you Tuesday"))).has_time_info = true ∧
    ((extract_details offNlu (cs ("see you Tuesday"))).day).isSome = true :=
  C2_fallback_day_extraction _ _ (by decide) ⟨cs ("tuesday"), by decide, by decide⟩

/-- C2 counterexample: the message `please extract booking information for
tuesday` contains the day token "tuesday", but fallback-path extraction
returns `has_time_info = true` with NO day: the message triggers the
fallback's extraction branch, whose JSON dict only sets `day` for
tomorrow/today/friday/monday/next week — not for tuesday. -/
theorem C2_counterexample :
    containsList (cs ("tuesday"))
      (pyLower (cs ("please extract booking information for tuesday"))) = true ∧
    (extract_details offNlu (cs ("please extract booking information for tuesday"))).has_time_info
      = true ∧
    (extract_details offNlu (cs ("please extract booking information for tuesday"))).day
      = none := by
  refine ⟨by decide, by decide, by decide⟩

-- ---------------------------------------------------------------------------
-- C9: session creation and message append
-- ---------------------------------------------------------------------------

theorem process_core_messages (cal : CalendarEnv) (nlu : NLU) (now : Nat)
    (intent message : Chars) (st1 : Session) :
    (process_core cal nlu now intent message st1).2.1.messages = st1.messages := by
  unfold process_core
  dsimp only []
  split
  · split
    · split
      · rfl
      · rfl
    · rfl
  · split
    · split
      · rfl
      · rfl
    · rfl

/-- C9: after any `process_message` call the store has an entry for the
session id — created for a new id, never evicted, other ids untouched — and
its message list is the previous list (empty for a new id) extended by
exactly the user message and the assistant response, in order. -/
theorem C9_session_message_append (cal : CalendarEnv) (nlu : NLU) (now : Nat)
    (m sid : Chars) (sessions : Sessions) :
    (((process_message cal nlu now m sid sessions).sessions sid).map Session.messages
      = some ((match sessions sid with | some s => s.messages | none => []) ++
          [⟨cs ("user"), m⟩,
            ⟨cs ("assistant"), (process_message cal nlu now m sid sessions).out.response⟩])) ∧
    ∀ k, k ≠ sid → (process_message cal nlu now m sid sessions).sessions k = sessions k := by
  constructor
  · simp only [process_message, finishProc, updateS, if_pos]
    rw [process_core_messages]
    cases hs : sessions sid with
    | none => simp [newSession]
    | some s => simp
  · intro k hk
    simp [process_message, finishProc, updateS, hk]

theorem C9_witness :
    (((process_message mockCal offNlu 0 (cs ("hello")) (cs ("w9")) emptySessions).sessions
        (cs ("w9"))).map Session.messages
      = some ([] ++ [⟨cs ("user"), cs ("hello")⟩,
          ⟨cs ("assistant"),
            (process_message mockCal offNlu 0 (cs ("hello")) (cs ("w9")) emptySessions).out.response⟩])) ∧
    (process_message mockCal offNlu 0 (cs ("hello")) (cs ("w9")) emptySessions).sessions
        (cs ("other")) = none := by
  constructor
  · exact (C9_session_message_append mockCal offNlu 0 (cs ("hello")) (cs ("w9")) emptySessions).1
  · exact (C9_session_message_append mockCal offNlu 0 (cs ("hello")) (cs ("w9"))
      emptySessions).2 (cs ("other")) (by decide)

-- ---------------------------------------------------------------------------
-- C10: chat-path slot selection confirms verbally but books nothing
-- ---------------------------------------------------------------------------

theorem process_core_conv (cal : CalendarEnv) (nlu : NLU) (now : Nat)
    (intent message : Chars) (st1 : Session)
    (hb : containsList (cs ("book_appointment")) intent = false)
    (hc : containsList (cs ("check_availability")) intent = false) :
    process_core cal nlu now intent message st1 =
      (handle_conversation nlu message st1, st1, []) := by
  unfold process_core
  rw [if_neg (by simp [hb]), if_neg (by simp [hc])]

theorem handle_conversation_select (nlu : NLU) (m : Chars) (st1 : Session) (n : Nat)
    (hnum : searchSlotNum m = some n)
    (hne : st1.available_slots.isEmpty = false)
    (hlen : n - 1 < st1.available_slots.length) :
    handle_conversation nlu m st1 =
      cs ("Perfect! You\x27ve selected ")
        ++ (st1.available_slots.get ⟨n - 1, hlen⟩).display
        ++ cs (". I\x27ll book this time slot for you. The meeting has been scheduled!") := by
  unfold handle_conversation
  rw [if_pos (And.intro hne (by rw [hnum]; rfl))]
  rw [hnum]
  dsimp only []
  rw [dif_pos hlen]

/-- C10: replying "1"/"2"/"3" in the conversation path (intent neither
book_appointment nor check_availability) with offered slots present yields a
response claiming "The meeting has been scheduled!", yet calls `create_event`
zero times and leaves `booking_confirmed` and the offered slot list
unchanged. -/
theorem C10_slot_selection_books_nothing (cal : CalendarEnv) (nlu : NLU) (now : Nat)
    (sessions : Sessions) (sid m : Chars) (st : Session) (n : Nat)
    (hs : sessions sid = some st)
    (hne : st.available_slots ≠ [])
    (hm : m = cs ("1") ∧ n = 1 ∨ m = cs ("2") ∧ n = 2 ∨ m = cs ("3") ∧ n = 3)
    (hlen : n - 1 < st.available_slots.length)
    (hb : containsList (cs ("book_appointment")) (understand_intent nlu m) = false)
    (hc : containsList (cs ("check_availability")) (understand_intent nlu m) = false) :
    (process_message cal nlu now m sid sessions).calls = [] ∧
    containsList (cs ("The meeting has been scheduled!"))
      (process_message cal nlu now m sid sessions).out.response = true ∧
    ((process_message cal nlu now m sid sessions).sessions sid).map Session.booking_confirmed
      = some st.booking_confirmed ∧
    ((process_message cal nlu now m sid sessions).sessions sid).map Session.available_slots
      = some st.available_slots := by
  have hnum : searchSlotNum m = some n := by
    rcases hm with ⟨rfl, rfl⟩ | ⟨rfl, rfl⟩ | ⟨rfl, rfl⟩ <;> decide
  have hie : st.available_slots.isEmpty = false := by
    cases hsl : st.available_slots with
    | nil => exact absurd hsl hne
    | cons a t => rfl
  have hpm : process_message cal nlu now m sid sessions =
      finishProc sessions sid (understand_intent nlu m) []
        { st with messages := st.messages ++ [⟨cs ("user"), m⟩] }
        (handle_conversation nlu m { st with messages := st.messages ++ [⟨cs ("user"), m⟩] }) := by
    unfold process_message
    rw [hs]
    dsimp only [Option.getD]
    rw [process_core_conv cal nlu now (understand_intent nlu m) m _ hb hc]
  rw [hpm]
  refine ⟨rfl, ?_, by simp [finishProc, updateS], by simp [finishProc, updateS]⟩
  have hresp := handle_conversation_select nlu m
    { st with messages := st.messages ++ [⟨cs ("user"), m⟩] } n hnum hie hlen
  show containsList _ (handle_conversation nlu m _) = true
  rw [hresp]
  rw [List.append_assoc]
  apply containsList_append_right
  apply containsList_append_right
  decide

def c10st : Session :=
  { messages := [], user_intent := [], extracted_info := emptyInfo,
    available_slots := [⟨600, 660, fmt12 600, true⟩], booking_confirmed := false,
    session_id := cs ("w10") }

def c10sessions : Sessions := updateS emptySessions (cs ("w10")) c10st

theorem C10_witness :
    (process_message mockCal offNlu 0 (cs ("1")) (cs ("w10")) c10sessions).calls = [] ∧
    ((process_message mockCal offNlu 0 (cs ("1")) (cs ("w10")) c10sessions).sessions
        (cs ("w10"))).map Session.booking_confirmed = some false :=
  ⟨(C10_slot_selection_books_nothing mockCal offNlu 0 c10sessions (cs ("w10")) (cs ("1"))
      c10st 1 (by decide) (by decide) (Or.inl ⟨rfl, rfl⟩) (by decide) (by decide) (by decide)).1,
    (C10_slot_selection_books_nothing mockCal offNlu 0 c10sessions (cs ("w10")) (cs ("1"))
      c10st 1 (by decide) (by decide) (Or.inl ⟨rfl, rfl⟩) (by decide) (by decide) (by decide)).2.2.1⟩

-- ---------------------------------------------------------------------------
-- C6: the end-to-end fallback run of the example message
-- ---------------------------------------------------------------------------

theorem create_event_success (cal : CalendarEnv) (t : Chars) (a b : Nat) (d : Chars) :
    (create_event cal t a b d).success = true := by
  unfold create_event
  by_cases hm : cal.mockMode
  · rw [if_pos hm]; rfl
  · rw [if_neg hm]
    cases hc : cal.realCreate with
    | ok pr => rfl
    | error u => rfl

theorem create_event_message_ne_nil (cal : CalendarEnv) (t : Chars) (a b : Nat) (d : Chars) :
    (create_event cal t a b d).message ≠ [] := by
  unfold create_event
  by_cases hm : cal.mockMode
  · rw [if_pos hm]
    exact List.cons_ne_nil _ _
  · rw [if_neg hm]
    cases hc : cal.realCreate with
    | ok pr => exact List.cons_ne_nil _ _
    | error u => exact List.cons_ne_nil _ _

theorem direct_book_future (cal : CalendarEnv) (now : Nat) (info : ExtractedInfo)
    (hv : ¬(23 < (direct_book_hm info).1 ∨ 59 < (direct_book_hm info).2))
    (hf : ¬(direct_book_start now info ≤ now)) :
    (direct_book cal now info).1.success = true ∧
    (direct_book cal now info).1.message =
      (create_event cal
        (pyCapitalize (info.type.getD (cs ("Meeting"))) ++ cs (" - ")
          ++ fmt12 (direct_book_start now info))
        (direct_book_start now info) (direct_book_start now info + 60)
        (cs ("Booked via Calendar Agent - ") ++ info.type.getD (cs ("Meeting")))).message := by
  unfold direct_book
  dsimp only []
  rw [if_neg hv, if_neg hf, if_pos (create_event_success cal _ _ _ _)]
  exact ⟨rfl, rfl⟩

theorem process_core_book_success (cal : CalendarEnv) (nlu : NLU) (now : Nat)
    (intent m : Chars) (st1 : Session)
    (hb : containsList (cs ("book_appointment")) intent = true)
    (ht : (extract_details nlu m).has_time_info = true)
    (hsucc : (direct_book cal now (extract_details nlu m)).1.success = true) :
    process_core cal nlu now intent m st1 =
      ((direct_book cal now (extract_details nlu m)).1.message,
        { st1 with booking_confirmed := true, available_slots := [] },
        (direct_book cal now (extract_details nlu m)).2) := by
  unfold process_core
  dsimp only []
  rw [if_pos hb, if_pos ht, if_pos hsucc]

theorem process_book_success (cal : CalendarEnv) (nlu : NLU) (now : Nat)
    (m sid : Chars) (sessions : Sessions) (db : BookingOutcome × List CreateCall)
    (hdb : direct_book cal now (extract_details nlu m) = db)
    (hb : containsList (cs ("book_appointment")) (understand_intent nlu m) = true)
    (ht : (extract_details nlu m).has_time_info = true)
    (hsucc : db.1.success = true) :
    (process_message cal nlu now m sid sessions).out.response = db.1.message ∧
    (process_message cal nlu now m sid sessions).out.extracted_info
      = ((sessions sid).getD (newSession sid)).extracted_info := by
  unfold process_message
  dsimp only []
  rw [process_core_book_success cal nlu now _ m _ hb ht (by rw [hdb]; exact hsucc)]
  rw [hdb]
  exact ⟨rfl, rfl⟩

def msgC6 : Chars := cs ("I want to schedule a call for tomorrow afternoon")

def infoC6 : ExtractedInfo :=
  { has_time_info := true, day := some (cs ("tomorrow")), time := some (cs ("afternoon")),
    type := some (cs ("call")), duration := none }

/-- C6 (amended): processing "I want to schedule a call for tomorrow
afternoon" under the fallback path: the extraction step yields
`{has_time_info := true, day := "tomorrow", time := "afternoon",
type := "call"}` and the returned response is non-empty — but the returned
`extracted_info` field is the empty record, because direct booking succeeds
("afternoon" ⊇ "noon" parses as 12 PM tomorrow, always in the future) and
`process_message` only stores `extracted_info` when direct booking fails. -/
theorem C6_fallback_end_to_end (g : Chars → Except Unit Chars) (now : Nat) :
    extract_details ⟨false, g⟩ msgC6 = infoC6 ∧
    (process_message mockCal ⟨false, g⟩ now msgC6 (cs ("demo")) emptySessions).out.response ≠ [] ∧
    (process_message mockCal ⟨false, g⟩ now msgC6 (cs ("demo")) emptySessions).out.extracted_info
      = emptyInfo := by
  have h1 : extract_details ⟨false, g⟩ msgC6 = infoC6 := by rfl
  have hb : containsList (cs ("book_appointment")) (understand_intent ⟨false, g⟩ msgC6) = true := by
    rw [show understand_intent ⟨false, g⟩ msgC6 = cs ("book_appointment") from rfl]
    decide
  have ht : (extract_details ⟨false, g⟩ msgC6).has_time_info = true := by rw [h1]; rfl
  have hpd : parse_date now (cs ("tomorrow")) = now + 1440 := by
    unfold parse_date
    dsimp only []
    rw [if_neg (by decide), if_pos (by decide)]
  have hstart : direct_book_start now infoC6 = (now + 1440) / 1440 * 1440 + 720 := by
    show dtReplace (parse_date now (cs ("tomorrow"))) 12 0 = _
    rw [hpd]
    rfl
  have hnp : ¬(direct_book_start now (extract_details ⟨false, g⟩ msgC6) ≤ now) := by
    rw [h1, hstart]
    omega
  have hv : ¬(23 < (direct_book_hm (extract_details ⟨false, g⟩ msgC6)).1
      ∨ 59 < (direct_book_hm (extract_details ⟨false, g⟩ msgC6)).2) := by
    rw [h1]
    decide
  have hdb := direct_book_future mockCal now (extract_details ⟨false, g⟩ msgC6) hv hnp
  have hproc := process_book_success mockCal ⟨false, g⟩ now msgC6 (cs ("demo"))
    emptySessions (direct_book mockCal now (extract_details ⟨false, g⟩ msgC6)) rfl hb ht hdb.1
  refine ⟨h1, ?_, ?_⟩
  · rw [hproc.1, hdb.2]
    exact create_event_message_ne_nil mockCal _ _ _ _
  · rw [hproc.2]
    rfl

/-- C6 counterexample (to the claim as stated about the returned
extracted-info record): at `now = 600` the returned `extracted_info` of
`process_message` for the example message is the empty record —
`has_time_info` is false and no day/time/type is present — because the
direct-booking-success branch never stores the extracted record in the
session. -/
theorem C6_counterexample :
    (process_message mockCal offNlu 600 msgC6 (cs ("demo")) emptySessions).out.extracted_info
        = emptyInfo ∧
    (process_message mockCal offNlu 600 msgC6 (cs ("demo"))
        emptySessions).out.extracted_info.has_time_info = false := by
  refine ⟨by decide, by decide⟩
